import Mathlib

/-!
Verification of the Citrus `color-wheel.js` module.

The JavaScript source is shallowly embedded: JS numbers are modelled as exact
rationals `ℚ`, byte channels as `ℕ`, `Math.round` as `jsRound`, and the DOM
element / canvas / cache environment as explicit state records with explicit
state passing.
-/

/-- JS `Math.round`: half-up rounding, `Math.round x = ⌊x + 1/2⌋`. -/
def jsRound (q : ℚ) : ℤ := ⌊q + 1/2⌋

/-- Truncation toward zero, as performed by the JS `%` operator on its quotient. -/
def jsTrunc (q : ℚ) : ℤ := if 0 ≤ q then ⌊q⌋ else ⌈q⌉

/-- JS remainder `a % b` for finite operands: the sign follows the dividend. -/
def jsMod (a b : ℚ) : ℚ := a - b * (jsTrunc (a / b) : ℚ)

/-- A JS number argument: a finite rational or one of the non-finite values. -/
inductive JsNum where
  | finite (q : ℚ)
  | nan
  | posInf
  | negInf
deriving DecidableEq

/-- `Uint8ClampedArray` write clamping (the recolor loop only ever writes
integer values, so only range clamping matters). -/
def clamp8 (z : ℤ) : ℕ := (max 0 (min z 255)).toNat

/-- `_rgbToHsl(r,g,b)` from `color-wheel.js`: channels are normalized to
`[0,1]`; lightness is `(max+min)/2`; the achromatic case (`max === min`)
yields hue 0 and saturation 0; otherwise saturation uses the piecewise
chroma formula conditioned on `l > 0.5` and hue uses the 60°-sector formula
tested in the JS `switch` order `r`, `g`, `b`.  Returns `(h*360, s, l)`. -/
def _rgbToHsl (r g b : ℚ) : ℚ × ℚ × ℚ :=
  let r' := r / 255
  let g' := g / 255
  let b' := b / 255
  let mx := max r' (max g' b')
  let mn := min r' (min g' b')
  let l := (mx + mn) / 2
  if mx = mn then (0 * 360, 0, l)
  else
    let d := mx - mn
    let s := if l > 1/2 then d / (2 - mx - mn) else d / (mx + mn)
    let h :=
      (if mx = r' then (g' - b') / d + (if g' < b' then (6 : ℚ) else 0)
       else if mx = g' then (b' - r') / d + 2
       else (r' - g') / d + 4) / 6
    (h * 360, s, l)

/-- The inner `hue2rgb` closure of `_hslToRgb`: two sequential wrap
adjustments followed by the four-sector piecewise interpolation. -/
def hue2rgb (p q t : ℚ) : ℚ :=
  let t1 := if t < 0 then t + 1 else t
  let t2 := if t1 > 1 then t1 - 1 else t1
  if t2 < 1/6 then p + (q - p) * 6 * t2
  else if t2 < 1/2 then q
  else if t2 < 2/3 then p + (q - p) * (2/3 - t2) * 6
  else p

/-- `_hslToRgb(h,s,l)` from `color-wheel.js`: the standard q/p interpolation,
each output channel rounded with `Math.round (… * 255)`. -/
def _hslToRgb (h s l : ℚ) : ℤ × ℤ × ℤ :=
  let h' := h / 360
  let q := if l < 1/2 then l * (1 + s) else l + s - l * s
  let p := 2 * l - q
  (jsRound (hue2rgb p q (h' + 1/3) * 255),
   jsRound (hue2rgb p q h' * 255),
   jsRound (hue2rgb p q (h' - 1/3) * 255))

/-- `_clampHue(h)`: non-finite input clamps to 0, finite input is reduced
with the JS `%` operator and corrected by `+360` when negative. -/
def _clampHue : JsNum → ℚ
  | .finite q => if (jsMod q 360) < 0 then jsMod q 360 + 360 else jsMod q 360
  | .nan => 0
  | .posInf => 0
  | .negInf => 0

/-! ### The pixel recolor loop -/

/-- The recolor loop of `_setHueInternal`, walking the flat RGBA byte array
`d` in stride-4 steps: skip when `a === 0`; skip when the lightness computed
by `_rgbToHsl` is `< 0.03` or `> 0.97`; otherwise overwrite RGB with
`_hslToRgb(targetHue, sat, light)` (writes into a `Uint8ClampedArray`, hence
`clamp8`).  Trailing fragments shorter than one pixel are left as they are
(an `ImageData` buffer always has length divisible by 4). -/
def recolorData (targetHue : ℚ) : List ℕ → List ℕ
  | r :: g :: b :: a :: rest =>
    if a = 0 then r :: g :: b :: a :: recolorData targetHue rest
    else if (_rgbToHsl r g b).2.2 < 3/100 ∨ (_rgbToHsl r g b).2.2 > 97/100 then
      r :: g :: b :: a :: recolorData targetHue rest
    else
      clamp8 (_hslToRgb targetHue (_rgbToHsl r g b).2.1 (_rgbToHsl r g b).2.2).1 ::
      clamp8 (_hslToRgb targetHue (_rgbToHsl r g b).2.1 (_rgbToHsl r g b).2.2).2.1 ::
      clamp8 (_hslToRgb targetHue (_rgbToHsl r g b).2.1 (_rgbToHsl r g b).2.2).2.2 ::
      a :: recolorData targetHue rest
  | rest => rest

/-- A four-channel pixel record. -/
structure Pixel where
  r : ℕ
  g : ℕ
  b : ℕ
  a : ℕ
deriving DecidableEq, Repr

/-- Pointwise reference transform, written from the spec wording (§4.2 /
claim C2): a pixel with alpha exactly 0 is left entirely unchanged; else if
the lightness computed by `rgbToHsl` from its RGB is < 0.03 or > 0.97 its
RGB is left unchanged; otherwise its RGB is replaced by
`hslToRgb(targetHue, s, l)` with `s`, `l` taken from `rgbToHsl` of the old
RGB (stored back into byte channels); the alpha channel is never modified. -/
def recolorPixel (targetHue : ℚ) (p : Pixel) : Pixel :=
  if p.a = 0 then p
  else if (_rgbToHsl p.r p.g p.b).2.2 < 3/100 ∨ (_rgbToHsl p.r p.g p.b).2.2 > 97/100 then p
  else
    { p with
      r := clamp8 (_hslToRgb targetHue (_rgbToHsl p.r p.g p.b).2.1 (_rgbToHsl p.r p.g p.b).2.2).1
      g := clamp8 (_hslToRgb targetHue (_rgbToHsl p.r p.g p.b).2.1 (_rgbToHsl p.r p.g p.b).2.2).2.1
      b := clamp8 (_hslToRgb targetHue (_rgbToHsl p.r p.g p.b).2.1 (_rgbToHsl p.r p.g p.b).2.2).2.2 }

/-- Serialise a pixel list into the flat RGBA byte array the loop walks. -/
def flattenPixels : List Pixel → List ℕ
  | [] => []
  | p :: ps => p.r :: p.g :: p.b :: p.a :: flattenPixels ps

/-- A JS value reaching `_setHueInternal`'s `targetHue` parameter other than
`null`: either a finite number (the only values the numeric entry points
produce), or the non-null, non-numeric value `Object.prototype[name]`
(a function, or `Object.prototype` itself for `__proto__`) that
`NAMED_HUES[name]` yields for a name inherited through the prototype chain.
Such a value is neither `== null` nor `=== false`, so it takes the recolor
path. -/
inductive HueVal where
  | num (q : ℚ)
  | protoVal (name : String)
deriving DecidableEq

/-- `_hslToRgb` applied to a non-numeric hue value: `h/360` is NaN, NaN
propagates into every `t`, every `<`-comparison inside `hue2rgb` is false,
so each of the three channels returns `p = 2*l - q`. -/
def _hslToRgbNaN (s l : ℚ) : ℤ × ℤ × ℤ :=
  let q := if l < 1/2 then l * (1 + s) else l + s - l * s
  let p := 2 * l - q
  (jsRound (p * 255), jsRound (p * 255), jsRound (p * 255))

/-- The recolor loop when `targetHue` is a non-numeric value (same skip
logic — the guards only involve the pixel's own lightness — with the
NaN-hue conversion on processed pixels). -/
def recolorDataNaN : List ℕ → List ℕ
  | r :: g :: b :: a :: rest =>
    if a = 0 then r :: g :: b :: a :: recolorDataNaN rest
    else if (_rgbToHsl r g b).2.2 < 3/100 ∨ (_rgbToHsl r g b).2.2 > 97/100 then
      r :: g :: b :: a :: recolorDataNaN rest
    else
      clamp8 (_hslToRgbNaN (_rgbToHsl r g b).2.1 (_rgbToHsl r g b).2.2).1 ::
      clamp8 (_hslToRgbNaN (_rgbToHsl r g b).2.1 (_rgbToHsl r g b).2.2).2.1 ::
      clamp8 (_hslToRgbNaN (_rgbToHsl r g b).2.1 (_rgbToHsl r g b).2.2).2.2 ::
      a :: recolorDataNaN rest
  | rest => rest

/-- The recolor loop as invoked with a dynamic JS hue value: numeric hues
take the `recolorData` path, non-numeric inherited values the NaN path. -/
def recolorDataJs : HueVal → List ℕ → List ℕ
  | .num q, d => recolorData q d
  | .protoVal _, d => recolorDataNaN d

/-! ### The DOM / canvas / cache environment and `_setHueInternal`

The browser side is modelled explicitly: `Env.decode` gives the natural
width, natural height and RGBA bytes of the bitmap a source string decodes
to (width 0 meaning the source never finishes loading, so the `await` in
`_setHueInternal` suspends forever); `Env.tainted` tells whether
`drawImage` throws for a source (cross-origin taint); `Env.encode` is
`canvas.toDataURL` on a raster.  An element carries `src`,
`dataset.src`, `dataset.originalSrc` (`none` = attribute never written),
`style.filter` and `crossOrigin`.  `processCount` is the
processing-count instrumentation hook of §8 of the spec: it increments
exactly when the pixel loop runs. -/

structure Env where
  decode : String → ℕ × ℕ × List ℕ
  tainted : String → Bool
  encode : ℕ → ℕ → List ℕ → String

structure ElemState where
  src : String
  datasetSrc : String
  originalSrc : Option String
  filter : String
  crossOrigin : String
deriving DecidableEq, Repr

structure CWState where
  elems : String → Option ElemState
  cache : String × HueVal → Option String
  processCount : ℕ

/-- `document.getElementById` update: replace one element, keep the rest. -/
def CWState.setElem (st : CWState) (id : String) (el : ElemState) : CWState :=
  { st with elems := fun i => if i = id then some el else st.elems i }

/-- `_ensureOriginalSrc(img)`: if `dataset.originalSrc` is falsy (absent or
empty), record `img.src || img.dataset.src || ''`. -/
def _ensureOriginalSrc (el : ElemState) : ElemState :=
  if el.originalSrc = none ∨ el.originalSrc = some "" then
    { el with originalSrc := some (if el.src ≠ "" then el.src
        else if el.datasetSrc ≠ "" then el.datasetSrc else "") }
  else el

/-- The reset branch of `_setHueInternal`: ensure the original is recorded,
restore `src` from it when truthy, always clear the filter. -/
def resetElem (el : ElemState) : ElemState :=
  match (_ensureOriginalSrc el).originalSrc with
  | some o =>
    if o ≠ "" then { _ensureOriginalSrc el with src := o, filter := "" }
    else { _ensureOriginalSrc el with filter := "" }
  | none => { _ensureOriginalSrc el with filter := "" }

/-- `if (!el.src && el.dataset && el.dataset.src) el.src = el.dataset.src`. -/
def fillSrc (el : ElemState) : ElemState :=
  if el.src = "" ∧ el.datasetSrc ≠ "" then { el with src := el.datasetSrc } else el

/-- `if (!el.crossOrigin) el.crossOrigin = 'anonymous'`. -/
def setCross (el : ElemState) : ElemState :=
  if el.crossOrigin = "" then { el with crossOrigin := "anonymous" } else el

/-- The CSS fallback filter string `hue-rotate(<hue>deg) saturate(1.1)`. -/
def fallbackFilter (hue : ℚ) : String :=
  "hue-rotate(" ++ toString hue ++ "deg) saturate(1.1)"

/-- JS stringification of an inherited `Object.prototype` value, as the
template literal interpolates it (`__proto__` is `Object.prototype` itself,
the rest are the native functions). -/
def protoValStr (name : String) : String :=
  if name = "__proto__" then "[object Object]"
  else "function " ++ name ++ "() \x7b [native code] \x7d"

/-- The fallback filter string for the dynamic hue value interpolated by
the template literal `hue-rotate(<targetHue>deg) saturate(1.1)`. -/
def fallbackFilterJs : HueVal → String
  | .num q => fallbackFilter q
  | .protoVal name => "hue-rotate(" ++ protoValStr name ++ "deg) saturate(1.1)"

/-- `_setHueInternal(itemId, targetHue)`.  Missing element: no-op.  Null hue:
reset behaviour.  Otherwise: fill `src` from `dataset.src`, mark
cross-origin, await readiness (suspending forever when the source is empty
or never decodes), check the `(itemId, targetHue)` cache, and on a miss
record the original, then either fall back to the CSS filter when the
canvas is tainted, or run the pixel loop, cache and apply the encoded
result and clear the filter. -/
def _setHueInternal (env : Env) (itemId : String) (targetHue : Option HueVal)
    (st : CWState) : CWState :=
  match st.elems itemId with
  | none => st
  | some el =>
    match targetHue with
    | none => st.setElem itemId (resetElem el)
    | some hue =>
      let el2 := setCross (fillSrc el)
      if el2.src = "" ∨ (env.decode el2.src).1 = 0 then st.setElem itemId el2
      else
        match st.cache (itemId, hue) with
        | some url => st.setElem itemId { el2 with src := url, filter := "" }
        | none =>
          let el3 := _ensureOriginalSrc el2
          if env.tainted el3.src then
            st.setElem itemId { el3 with filter := fallbackFilterJs hue }
          else
            let url := env.encode (env.decode el3.src).1 (env.decode el3.src).2.1
              (recolorDataJs hue (env.decode el3.src).2.2)
            { elems := fun i =>
                if i = itemId then some { el3 with src := url, filter := "" }
                else st.elems i
              cache := fun k => if k = (itemId, hue) then some url else st.cache k
              processCount := st.processCount + 1 }

/-- The `NAMED_HUES` table (`Original` maps to the null sentinel). -/
def NAMED_HUES : List (String × Option ℚ) :=
  [("Original", none), ("Red", some 0), ("Orange", some 30), ("Yellow", some 60),
   ("Green", some 120), ("Cyan", some 180), ("Blue", some 240), ("Purple", some 270),
   ("Pink", some 320)]

/-- One hex digit, case-insensitive, as in the `[0-9a-f]` / `i` regex class. -/
def hexVal (c : Char) : Option ℕ :=
  if '0' ≤ c ∧ c ≤ '9' then some (c.toNat - '0'.toNat)
  else if 'a' ≤ c ∧ c ≤ 'f' then some (c.toNat - 'a'.toNat + 10)
  else if 'A' ≤ c ∧ c ≤ 'F' then some (c.toNat - 'A'.toNat + 10)
  else none

/-- ASCII whitespace, for the `.trim()` in `setHex` (JS trims a larger
Unicode class; only the ASCII part matters for hex strings). -/
def isJsSpace (c : Char) : Bool :=
  c == ' ' || c == '\t' || c == '\n' || c == '\r' || c == '\x0b' || c == '\x0c'

/-- `String.prototype.trim`: drop whitespace at both ends. -/
def jsTrim (cs : List Char) : List Char :=
  ((cs.dropWhile isJsSpace).reverse.dropWhile isJsSpace).reverse

/-- The hex acceptor of `setHex`: after trimming, an optional leading `#`,
then exactly 3 hex digits (each doubled into a byte) or exactly 6 hex
digits (consecutive pairs); anything else is rejected. -/
def parseHex (hex : String) : Option (ℕ × ℕ × ℕ) :=
  let cs :=
    match jsTrim hex.data with
    | '#' :: rest => rest
    | cs => cs
  match cs with
  | [c1, c2, c3] =>
    match hexVal c1, hexVal c2, hexVal c3 with
    | some v1, some v2, some v3 => some (16 * v1 + v1, 16 * v2 + v2, 16 * v3 + v3)
    | _, _, _ => none
  | [c1, c2, c3, c4, c5, c6] =>
    match hexVal c1, hexVal c2, hexVal c3, hexVal c4, hexVal c5, hexVal c6 with
    | some v1, some v2, some v3, some v4, some v5, some v6 =>
      some (16 * v1 + v2, 16 * v3 + v4, 16 * v5 + v6)
    | _, _, _, _, _, _ => none
  | _ => none

/-- The property names every plain object inherits from `Object.prototype`,
for which the JS `in` operator answers true on `NAMED_HUES` even though
they are not own keys of the table.  For each of them `NAMED_HUES[name]`
is a non-null, non-numeric value. -/
def objectProto : List String :=
  ["constructor", "hasOwnProperty", "isPrototypeOf", "propertyIsEnumerable",
   "toLocaleString", "toString", "valueOf", "__defineGetter__", "__defineSetter__",
   "__lookupGetter__", "__lookupSetter__", "__proto__"]

namespace ColorWheel

/-- `ColorWheel.set(itemId, name)`.  The source tests
`!name || !(name in NAMED_HUES)` and resets on that; otherwise it passes
`NAMED_HUES[name]`.  JS `in` walks the prototype chain, so membership is
"own key of the table, or property of `Object.prototype`"; property access
yields the own value when the name is an own key, and the inherited
non-null value otherwise.  The three cases below desugar exactly that. -/
def set (env : Env) (itemId name : String) (st : CWState) : CWState :=
  if name = "" then _setHueInternal env itemId none st
  else
    match NAMED_HUES.lookup name with
    | some v => _setHueInternal env itemId (v.map HueVal.num) st
    | none =>
      if name ∈ objectProto then
        _setHueInternal env itemId (some (.protoVal name)) st
      else _setHueInternal env itemId none st

/-- `ColorWheel.setHue(itemId, degrees)`. -/
def setHue (env : Env) (itemId : String) (degrees : JsNum) (st : CWState) : CWState :=
  _setHueInternal env itemId (some (.num (_clampHue degrees))) st

/-- `ColorWheel.setHex(itemId, hex)`: malformed hex resets; otherwise the
hue derived by `_rgbToHsl` from the parsed bytes is clamped and applied. -/
def setHex (env : Env) (itemId : String) (hex : String) (st : CWState) : CWState :=
  match parseHex hex with
  | none => _setHueInternal env itemId none st
  | some (r, g, b) =>
    _setHueInternal env itemId (some (.num (_clampHue (.finite (_rgbToHsl r g b).1)))) st

/-- `ColorWheel.reset(itemId)`. -/
def reset (env : Env) (itemId : String) (st : CWState) : CWState :=
  _setHueInternal env itemId none st

end ColorWheel

/-- A public facade call, for statements quantifying over "any operation". -/
inductive Op where
  | opSet (name : String)
  | opSetHue (degrees : JsNum)
  | opSetHex (hex : String)
  | opReset

/-- Run one facade call against the state. -/
def runOp (env : Env) (itemId : String) : Op → CWState → CWState
  | .opSet name => ColorWheel.set env itemId name
  | .opSetHue d => ColorWheel.setHue env itemId d
  | .opSetHex hx => ColorWheel.setHex env itemId hx
  | .opReset => ColorWheel.reset env itemId

/-- Trivial environment for concrete witnesses. -/
def envTrivial : Env :=
  { decode := fun _ => (0, 0, []), tainted := fun _ => false, encode := fun _ _ _ => "" }

/-- Concrete tainted-canvas scenario for the C3 witness. -/
def elemPic : ElemState :=
  { src := "pic.png", datasetSrc := "", originalSrc := none, filter := "", crossOrigin := "" }

def envTaintAll : Env :=
  { decode := fun _ => (1, 1, []), tainted := fun _ => true, encode := fun _ _ _ => "" }

def stPic : CWState :=
  { elems := fun i => if i = "img" then some elemPic else none
    cache := fun _ => none
    processCount := 0 }

/-- Concrete untainted environment for the C7 witness: every source decodes
to a 1×1 bitmap and encoding always yields the fixed data URL. -/
def envOk : Env :=
  { decode := fun _ => (1, 1, [10, 20, 30, 255])
    tainted := fun _ => false
    encode := fun _ _ _ => "data:payload" }

/-- Recolored element with a remembered original, for the C8 witness. -/
def elemRecolored : ElemState :=
  { src := "data:x", datasetSrc := "", originalSrc := some "orig.png"
    filter := "hue-rotate(33deg)", crossOrigin := "anonymous" }

def stRec : CWState :=
  { elems := fun i => if i = "img" then some elemRecolored else none
    cache := fun _ => none
    processCount := 0 }

lemma hue2rgb_lowc (p q t : ℚ) (h0 : 0 ≤ t) (h1 : t ≤ 1/6) :
    hue2rgb p q t = p + (q - p) * 6 * t := by
  have hn : ¬ t < 0 := not_lt.mpr h0
  have hn1 : ¬ t > 1 := not_lt.mpr (by linarith)
  simp only [hue2rgb, if_neg hn, if_neg hn1]
  rcases lt_or_eq_of_le h1 with h | h
  · rw [if_pos h]
  · subst h
    norm_num
    ring

lemma hue2rgb_qc (p q t : ℚ) (h0 : 1/6 ≤ t) (h1 : t ≤ 1/2) :
    hue2rgb p q t = q := by
  have hn : ¬ t < 0 := not_lt.mpr (by linarith)
  have hn1 : ¬ t > 1 := not_lt.mpr (by linarith)
  simp only [hue2rgb, if_neg hn, if_neg hn1, if_neg (not_lt.mpr h0)]
  rcases lt_or_eq_of_le h1 with h | h
  · rw [if_pos h]
  · subst h
    norm_num
    ring

lemma hue2rgb_midc (p q t : ℚ) (h0 : 1/2 ≤ t) (h1 : t ≤ 2/3) :
    hue2rgb p q t = p + (q - p) * (2/3 - t) * 6 := by
  have hn : ¬ t < 0 := not_lt.mpr (by linarith)
  have hn1 : ¬ t > 1 := not_lt.mpr (by linarith)
  have hn2 : ¬ t < 1/6 := not_lt.mpr (by linarith)
  simp only [hue2rgb, if_neg hn, if_neg hn1, if_neg hn2, if_neg (not_lt.mpr h0)]
  rcases lt_or_eq_of_le h1 with h | h
  · rw [if_pos h]
  · subst h
    norm_num

lemma hue2rgb_highc (p q t : ℚ) (h0 : 2/3 ≤ t) (h1 : t ≤ 1) :
    hue2rgb p q t = p := by
  have hn : ¬ t < 0 := not_lt.mpr (by linarith)
  have hn1 : ¬ t > 1 := not_lt.mpr h1
  have hn2 : ¬ t < 1/6 := not_lt.mpr (by linarith)
  have hn3 : ¬ t < 1/2 := not_lt.mpr (by linarith)
  simp only [hue2rgb, if_neg hn, if_neg hn1, if_neg hn2, if_neg hn3,
    if_neg (not_lt.mpr h0)]

lemma hue2rgb_negc (p q t : ℚ) (h0 : -1/3 ≤ t) (h1 : t ≤ 0) :
    hue2rgb p q t = p := by
  rcases lt_or_eq_of_le h1 with h | h
  · have hn1 : ¬ t + 1 > 1 := not_lt.mpr (by linarith)
    have hn2 : ¬ t + 1 < 1/6 := not_lt.mpr (by linarith)
    have hn3 : ¬ t + 1 < 1/2 := not_lt.mpr (by linarith)
    have hn4 : ¬ t + 1 < 2/3 := not_lt.mpr (by linarith)
    simp only [hue2rgb, if_pos h, if_neg hn1, if_neg hn2, if_neg hn3, if_neg hn4]
  · subst h
    norm_num [hue2rgb]

lemma hue2rgb_low1c (p q t : ℚ) (h0 : 1 < t) (h1 : t ≤ 7/6) :
    hue2rgb p q t = p + (q - p) * 6 * (t - 1) := by
  have hn : ¬ t < 0 := not_lt.mpr (by linarith)
  simp only [hue2rgb, if_neg hn, if_pos h0]
  rcases lt_or_eq_of_le h1 with h | h
  · rw [if_pos (by linarith : t - 1 < 1/6)]
  · subst h
    norm_num
    ring

lemma hue2rgb_q1c (p q t : ℚ) (h0 : 7/6 ≤ t) (h1 : t ≤ 3/2) :
    hue2rgb p q t = q := by
  have hn : ¬ t < 0 := not_lt.mpr (by linarith)
  have hp1 : t > 1 := by linarith
  have hn2 : ¬ t - 1 < 1/6 := not_lt.mpr (by linarith)
  simp only [hue2rgb, if_neg hn, if_pos hp1, if_neg hn2]
  rcases lt_or_eq_of_le h1 with h | h
  · rw [if_pos (by linarith : t - 1 < 1/2)]
  · subst h
    norm_num
    ring

lemma hue2rgb_const (c t : ℚ) : hue2rgb c c t = c := by
  simp only [hue2rgb]
  split_ifs <;> ring

/-- In the chromatic case the `q` of `_hslToRgb`, fed with the saturation and
lightness produced by `_rgbToHsl`, recovers the channel maximum exactly. -/
lemma q_eval (mx mn : ℚ) (h0 : 0 ≤ mn) (hlt : mn < mx) (h1 : mx ≤ 1) :
    (if (mx + mn) / 2 < 1/2 then
        (mx + mn) / 2 *
          (1 + (if (mx + mn) / 2 > 1/2 then (mx - mn) / (2 - mx - mn)
                else (mx - mn) / (mx + mn)))
      else
        (mx + mn) / 2 +
            (if (mx + mn) / 2 > 1/2 then (mx - mn) / (2 - mx - mn)
             else (mx - mn) / (mx + mn)) -
          (mx + mn) / 2 *
            (if (mx + mn) / 2 > 1/2 then (mx - mn) / (2 - mx - mn)
             else (mx - mn) / (mx + mn))) = mx := by
  have hsum : 0 < mx + mn := by linarith
  have hdiff : 0 < 2 - mx - mn := by linarith
  rcases lt_trichotomy ((mx + mn) / 2) (1/2) with h | h | h
  · rw [if_pos h, if_neg (by linarith)]
    field_simp
    ring
  · have hs1 : mx + mn = 1 := by linarith
    rw [if_neg (by linarith), if_neg (by linarith)]
    field_simp
    linear_combination (-2 * (mx - mn)) * hs1
  · rw [if_neg (by linarith), if_pos h]
    field_simp
    ring

/-- Exact round-trip at the rational level: feeding the `(h,s,l)` produced by
`_rgbToHsl` into `_hslToRgb` recovers each channel exactly (before the final
rounding, each reconstructed channel equals the original channel value, so
rounding returns `jsRound` of the original channel). -/
theorem roundtrip_exact (r g b : ℚ)
    (hr0 : 0 ≤ r) (hr1 : r ≤ 255) (hg0 : 0 ≤ g) (hg1 : g ≤ 255)
    (hb0 : 0 ≤ b) (hb1 : b ≤ 255) :
    _hslToRgb (_rgbToHsl r g b).1 (_rgbToHsl r g b).2.1 (_rgbToHsl r g b).2.2
      = (jsRound r, jsRound g, jsRound b) := by
  simp only [_rgbToHsl]
  set x := r / 255 with hxd
  set y := g / 255 with hyd
  set z := b / 255 with hzd
  have hx0 : 0 ≤ x := by rw [hxd]; positivity
  have hy0 : 0 ≤ y := by rw [hyd]; positivity
  have hz0 : 0 ≤ z := by rw [hzd]; positivity
  have hx1 : x ≤ 1 := by rw [hxd, div_le_one (by norm_num : (0:ℚ) < 255)]; exact hr1
  have hy1 : y ≤ 1 := by rw [hyd, div_le_one (by norm_num : (0:ℚ) < 255)]; exact hg1
  have hz1 : z ≤ 1 := by rw [hzd, div_le_one (by norm_num : (0:ℚ) < 255)]; exact hb1
  have hx255 : x * 255 = r := by rw [hxd]; field_simp
  have hy255 : y * 255 = g := by rw [hyd]; field_simp
  have hz255 : z * 255 = b := by rw [hzd]; field_simp
  set mx := max x (max y z) with hmxd
  set mn := min x (min y z) with hmnd
  have hxmx : x ≤ mx := le_max_left _ _
  have hymx : y ≤ mx := le_trans (le_max_left _ _) (le_max_right _ _)
  have hzmx : z ≤ mx := le_trans (le_max_right _ _) (le_max_right _ _)
  have hmnx : mn ≤ x := min_le_left _ _
  have hmny : mn ≤ y := le_trans (min_le_right _ _) (min_le_left _ _)
  have hmnz : mn ≤ z := le_trans (min_le_right _ _) (min_le_right _ _)
  have hmx1 : mx ≤ 1 := max_le hx1 (max_le hy1 hz1)
  have hmn0 : 0 ≤ mn := le_min hx0 (le_min hy0 hz0)
  by_cases hC : mx = mn
  · -- achromatic: all three channels coincide
    rw [if_pos hC]
    have hxv : x = mx := le_antisymm hxmx (by rw [hC]; exact hmnx)
    have hyv : y = mx := le_antisymm hymx (by rw [hC]; exact hmny)
    have hzv : z = mx := le_antisymm hzmx (by rw [hC]; exact hmnz)
    dsimp only
    simp only [_hslToRgb]
    have hq : (if (mx + mn) / 2 < 1/2 then (mx + mn) / 2 * (1 + (0:ℚ))
        else (mx + mn) / 2 + 0 - (mx + mn) / 2 * 0) = (mx + mn) / 2 := by
      split_ifs <;> ring
    rw [hq, show 2 * ((mx + mn) / 2) - (mx + mn) / 2 = (mx + mn) / 2 from by ring]
    simp only [hue2rgb_const]
    simp only [Prod.mk.injEq]
    refine ⟨?_, ?_, ?_⟩ <;> congr 1
    · rw [← hC, show ((mx + mx) / 2 : ℚ) = mx from by ring, ← hxv]; exact hx255
    · rw [← hC, show ((mx + mx) / 2 : ℚ) = mx from by ring, ← hyv]; exact hy255
    · rw [← hC, show ((mx + mx) / 2 : ℚ) = mx from by ring, ← hzv]; exact hz255
  · -- chromatic
    rw [if_neg hC]
    have hmnmx : mn ≤ mx := le_trans hmnx hxmx
    have hlt : mn < mx := lt_of_le_of_ne hmnmx (fun h => hC h.symm)
    have hd : 0 < mx - mn := sub_pos.mpr hlt
    have hdne : mx - mn ≠ 0 := ne_of_gt hd
    dsimp only
    simp only [_hslToRgb]
    have h360 : ∀ w : ℚ, w * 360 / 360 = w := fun w => by field_simp
    simp only [h360]
    rw [q_eval mx mn hmn0 hlt hmx1,
      show 2 * ((mx + mn) / 2) - mx = mn from by ring]
    by_cases hxeq : mx = x
    · -- red sector: the maximum is attained (first) by the red channel
      have hyx : y ≤ x := by rw [← hxeq]; exact hymx
      have hzx : z ≤ x := by rw [← hxeq]; exact hzmx
      by_cases hgb : y < z
      · -- g < b branch of the JS switch
        have hmnz' : mn = y := by
          rw [hmnd, min_eq_left (le_of_lt hgb), min_eq_right hyx]
        rw [if_pos hxeq, if_pos hgb]
        set Q := (y - z) / (mx - mn) with hQd
        have hQmul : (mx - mn) * Q = y - z := by
          rw [hQd, mul_comm, div_mul_cancel₀ _ hdne]
        have hQ0 : Q < 0 := div_neg_of_neg_of_pos (by linarith) hd
        have hQ1 : -1 ≤ Q := by
          rw [hQd, le_div_iff₀ hd]
          have := hzmx
          have := hmnz'
          linarith
        rw [hue2rgb_q1c mn mx ((Q + 6) / 6 + 1/3) (by linarith) (by linarith)]
        rw [hue2rgb_highc mn mx ((Q + 6) / 6) (by linarith) (by linarith)]
        rw [hue2rgb_midc mn mx ((Q + 6) / 6 - 1/3) (by linarith) (by linarith)]
        simp only [Prod.mk.injEq]
        refine ⟨?_, ?_, ?_⟩ <;> congr 1
        · rw [hxeq]; exact hx255
        · rw [hmnz']; exact hy255
        · linear_combination (-255) * hQmul + 255 * hmnz' + hz255
      · -- b ≤ g branch
        have hzy : z ≤ y := not_lt.mp hgb
        have hmnz' : mn = z := by
          rw [hmnd, min_eq_right hzy, min_eq_right hzx]
        rw [if_pos hxeq, if_neg hgb]
        set Q := (y - z) / (mx - mn) with hQd
        have hQmul : (mx - mn) * Q = y - z := by
          rw [hQd, mul_comm, div_mul_cancel₀ _ hdne]
        have hQ0 : 0 ≤ Q := div_nonneg (by linarith) (le_of_lt hd)
        have hQ1 : Q ≤ 1 := by
          rw [hQd, div_le_one hd]
          have := hymx
          have := hmnz'
          linarith
        rw [hue2rgb_qc mn mx ((Q + 0) / 6 + 1/3) (by linarith) (by linarith)]
        rw [hue2rgb_lowc mn mx ((Q + 0) / 6) (by linarith) (by linarith)]
        rw [hue2rgb_negc mn mx ((Q + 0) / 6 - 1/3) (by linarith) (by linarith)]
        simp only [Prod.mk.injEq]
        refine ⟨?_, ?_, ?_⟩ <;> congr 1
        · rw [hxeq]; exact hx255
        · linear_combination 255 * hQmul + 255 * hmnz' + hy255
        · rw [hmnz']; exact hz255
    · -- the red channel is not the (first) maximum
      have hxM : x < max y z := by
        rcases le_or_lt (max y z) x with h | h
        · exact absurd (by rw [hmxd]; exact max_eq_left h) hxeq
        · exact h
      have hmxM : mx = max y z := by rw [hmxd]; exact max_eq_right (le_of_lt hxM)
      by_cases hgeq : mx = y
      · -- green sector
        have hzy : z ≤ y := by rw [← hgeq]; exact hzmx
        have hxy : x < y := by
          have h := hxM
          rw [← hmxM, hgeq] at h
          exact h
        rw [if_neg hxeq, if_pos hgeq]
        set Q := (z - x) / (mx - mn) with hQd
        have hQmul : (mx - mn) * Q = z - x := by
          rw [hQd, mul_comm, div_mul_cancel₀ _ hdne]
        have hQ1 : Q ≤ 1 := by
          rw [hQd, div_le_one hd]
          have := hzmx
          have := hmnx
          linarith
        have hQ0 : -1 ≤ Q := by
          rw [hQd, le_div_iff₀ hd]
          have := hxmx
          have := hmnz
          linarith
        rw [hue2rgb_qc mn mx ((Q + 2) / 6) (by linarith) (by linarith)]
        rcases le_or_lt z x with hzx | hzx
        · -- b ≤ r: the minimum is the blue channel
          have hmnz' : mn = z := by
            rw [hmnd, min_eq_right hzy, min_eq_right hzx]
          have hQle0 : Q ≤ 0 := by
            rw [hQd]
            apply div_nonpos_of_nonpos_of_nonneg (by linarith) (le_of_lt hd)
          rw [hue2rgb_midc mn mx ((Q + 2) / 6 + 1/3) (by linarith) (by linarith)]
          rw [hue2rgb_negc mn mx ((Q + 2) / 6 - 1/3) (by linarith) (by linarith)]
          simp only [Prod.mk.injEq]
          refine ⟨?_, ?_, ?_⟩ <;> congr 1
          · linear_combination (-255) * hQmul + 255 * hmnz' + hx255
          · rw [hgeq]; exact hy255
          · rw [hmnz']; exact hz255
        · -- r < b: the minimum is the red channel
          have hmnx' : mn = x := by
            rw [hmnd, min_eq_right hzy, min_eq_left (le_of_lt hzx)]
          have hQgt0 : 0 < Q := div_pos (by linarith) hd
          rw [hue2rgb_highc mn mx ((Q + 2) / 6 + 1/3) (by linarith) (by linarith)]
          rw [hue2rgb_lowc mn mx ((Q + 2) / 6 - 1/3) (by linarith) (by linarith)]
          simp only [Prod.mk.injEq]
          refine ⟨?_, ?_, ?_⟩ <;> congr 1
          · rw [hmnx']; exact hx255
          · rw [hgeq]; exact hy255
          · linear_combination 255 * hQmul + 255 * hmnx' + hz255
      · -- blue sector
        have hyz : y < z := by
          rcases le_or_lt z y with h | h
          · exact absurd (by rw [hmxM]; exact max_eq_left h) hgeq
          · exact h
        have hmxz : mx = z := by rw [hmxM]; exact max_eq_right (le_of_lt hyz)
        have hxz : x < z := by
          have h := hxM
          rw [← hmxM, hmxz] at h
          exact h
        rw [if_neg hxeq, if_neg hgeq]
        set Q := (x - y) / (mx - mn) with hQd
        have hQmul : (mx - mn) * Q = x - y := by
          rw [hQd, mul_comm, div_mul_cancel₀ _ hdne]
        have hQ1 : Q ≤ 1 := by
          rw [hQd, div_le_one hd]
          have := hxmx
          have := hmny
          linarith
        have hQ0 : -1 ≤ Q := by
          rw [hQd, le_div_iff₀ hd]
          have := hymx
          have := hmnx
          linarith
        rw [hue2rgb_qc mn mx ((Q + 4) / 6 - 1/3) (by linarith) (by linarith)]
        rcases le_or_lt x y with hxy | hxy
        · -- r ≤ g: the minimum is the red channel
          have hmnx' : mn = x := by
            rw [hmnd, min_eq_left (le_of_lt hyz), min_eq_left hxy]
          have hQle0 : Q ≤ 0 := by
            rw [hQd]
            apply div_nonpos_of_nonpos_of_nonneg (by linarith) (le_of_lt hd)
          rw [hue2rgb_highc mn mx ((Q + 4) / 6 + 1/3) (by linarith) (by linarith)]
          rw [hue2rgb_midc mn mx ((Q + 4) / 6) (by linarith) (by linarith)]
          simp only [Prod.mk.injEq]
          refine ⟨?_, ?_, ?_⟩ <;> congr 1
          · rw [hmnx']; exact hx255
          · linear_combination (-255) * hQmul + 255 * hmnx' + hy255
          · rw [hmxz]; exact hz255
        · -- g < r: the minimum is the green channel
          have hmny' : mn = y := by
            rw [hmnd, min_eq_left (le_of_lt hyz), min_eq_right (le_of_lt hxy)]
          have hQgt0 : 0 < Q := div_pos (by linarith) hd
          rw [hue2rgb_low1c mn mx ((Q + 4) / 6 + 1/3) (by linarith) (by linarith)]
          rw [hue2rgb_highc mn mx ((Q + 4) / 6) (by linarith) (by linarith)]
          simp only [Prod.mk.injEq]
          refine ⟨?_, ?_, ?_⟩ <;> congr 1
          · linear_combination 255 * hQmul + 255 * hmny' + hx255
          · rw [hmny']; exact hy255
          · rw [hmxz]; exact hz255

/-- `Math.round` of an integral rational is that integer. -/
lemma jsRound_natCast (n : ℕ) : jsRound (n : ℚ) = (n : ℤ) := by
  rw [jsRound, Int.floor_eq_iff]
  constructor <;> push_cast <;> linarith

/-- C1.  For every 8-bit triple `(r,g,b)`, `hslToRgb (rgbToHsl (r,g,b))`
returns a triple equal to `(r,g,b)` within ±1 per channel.  (In the exact
rational semantics the round trip is in fact exact, so the ±1 tolerance of
the spec certainly holds.) -/
theorem claim_C1_roundtrip (r g b : ℕ) (hr : r ≤ 255) (hg : g ≤ 255) (hb : b ≤ 255) :
    ((_hslToRgb (_rgbToHsl r g b).1 (_rgbToHsl r g b).2.1 (_rgbToHsl r g b).2.2).1
        - (r : ℤ)).natAbs ≤ 1 ∧
    ((_hslToRgb (_rgbToHsl r g b).1 (_rgbToHsl r g b).2.1 (_rgbToHsl r g b).2.2).2.1
        - (g : ℤ)).natAbs ≤ 1 ∧
    ((_hslToRgb (_rgbToHsl r g b).1 (_rgbToHsl r g b).2.1 (_rgbToHsl r g b).2.2).2.2
        - (b : ℤ)).natAbs ≤ 1 := by
  have h := roundtrip_exact (r : ℚ) (g : ℚ) (b : ℚ)
    (by positivity) (by exact_mod_cast hr)
    (by positivity) (by exact_mod_cast hg)
    (by positivity) (by exact_mod_cast hb)
  rw [h]
  simp [jsRound_natCast]

/-- Witness for C1 at the concrete triple (200, 100, 50). -/
theorem claim_C1_roundtrip_witness :
    (200 ≤ 255 ∧ 100 ≤ 255 ∧ 50 ≤ 255) ∧
    (((_hslToRgb (_rgbToHsl 200 100 50).1 (_rgbToHsl 200 100 50).2.1
          (_rgbToHsl 200 100 50).2.2).1 - (200 : ℤ)).natAbs ≤ 1 ∧
      ((_hslToRgb (_rgbToHsl 200 100 50).1 (_rgbToHsl 200 100 50).2.1
          (_rgbToHsl 200 100 50).2.2).2.1 - (100 : ℤ)).natAbs ≤ 1 ∧
      ((_hslToRgb (_rgbToHsl 200 100 50).1 (_rgbToHsl 200 100 50).2.1
          (_rgbToHsl 200 100 50).2.2).2.2 - (50 : ℤ)).natAbs ≤ 1) := by
  refine ⟨⟨by norm_num, by norm_num, by norm_num⟩, ?_⟩
  have h := claim_C1_roundtrip 200 100 50 (by norm_num) (by norm_num) (by norm_num)
  exact_mod_cast h

/-- C2.  The stride-4 pixel loop is exactly the pointwise reference map:
on any whole-pixel buffer it acts as `List.map recolorPixel` (so no pixel's
output depends on any other pixel), and the reference map never changes the
alpha channel. -/
theorem claim_C2_pointwise (targetHue : ℚ) :
    (∀ ps : List Pixel,
      recolorData targetHue (flattenPixels ps) = flattenPixels (ps.map (recolorPixel targetHue))) ∧
    (∀ p : Pixel, (recolorPixel targetHue p).a = p.a) := by
  constructor
  · intro ps
    induction ps with
    | nil => rfl
    | cons p ps ih =>
      simp only [flattenPixels, List.map, recolorData, recolorPixel]
      split_ifs <;> simp_all [flattenPixels]
  · intro p
    simp only [recolorPixel]
    split_ifs <;> rfl

/-- `Uint8ClampedArray` write of an in-range integer is the identity. -/
lemma clamp8_coe (n : ℕ) (h : n ≤ 255) : clamp8 (n : ℤ) = n := by
  simp only [clamp8]
  omega

/-- C4, counterexample.  The pixel (128,127,128) has lightness exactly 1/2
and hue 300; the target hue 301 differs from 300, yet the recolor loop
leaves the pixel byte-identical — refuting "every pixel with lightness
exactly 0.5 is changed by recoloring to any target hue that differs from
the pixel's own hue". -/
theorem claim_C4_counterexample :
    (_rgbToHsl 128 127 128).2.2 = 1/2 ∧
    (_rgbToHsl 128 127 128).1 = 300 ∧
    (301 : ℚ) ≠ 300 ∧
    recolorData 301 [128, 127, 128, 255] = [128, 127, 128, 255] := by
  have h1 : _rgbToHsl 128 127 128 = (300, 1/255, 1/2) := by
    norm_num [_rgbToHsl, max_def, min_def]
  have h2 : _hslToRgb 301 (1/255) (1/2) = (128, 127, 128) := by
    norm_num [_hslToRgb, hue2rgb, jsRound, Int.floor_eq_iff]
  refine ⟨by rw [h1], by rw [h1], by norm_num, ?_⟩
  norm_num [recolorData, h1, h2, clamp8]
  omega

/-- C4, amended.  A pixel whose computed lightness is at most 0.01 or at
least 0.99 is left unchanged by the recolor loop for every target hue (the
spec's 0.01/0.99 examples lie in the excluded band; no 8-bit pixel has
lightness exactly 0.01 or 0.99).  A pixel with lightness exactly 0.5 is
always processed — its RGB is rewritten through
`hslToRgb(targetHue, s, l)` — and such a pixel can change (e.g.
(128,127,127), own hue 0, is changed by target hue 180), but, per the
counterexample, not every differing target hue changes it. -/
theorem claim_C4_amended (hue : ℚ) (r g b a : ℕ) :
    ((_rgbToHsl r g b).2.2 ≤ 1/100 ∨ 99/100 ≤ (_rgbToHsl r g b).2.2 →
      recolorData hue [r, g, b, a] = [r, g, b, a]) ∧
    (a ≠ 0 → (_rgbToHsl r g b).2.2 = 1/2 →
      recolorData hue [r, g, b, a] =
        [clamp8 (_hslToRgb hue (_rgbToHsl r g b).2.1 (_rgbToHsl r g b).2.2).1,
         clamp8 (_hslToRgb hue (_rgbToHsl r g b).2.1 (_rgbToHsl r g b).2.2).2.1,
         clamp8 (_hslToRgb hue (_rgbToHsl r g b).2.1 (_rgbToHsl r g b).2.2).2.2,
         a]) ∧
    ((_rgbToHsl 128 127 127).2.2 = 1/2 ∧ (_rgbToHsl 128 127 127).1 = 0 ∧
      (180 : ℚ) ≠ 0 ∧
      recolorData 180 [128, 127, 127, 255] ≠ [128, 127, 127, 255]) := by
  refine ⟨?_, ?_, ?_⟩
  · intro h
    have hguard : (_rgbToHsl r g b).2.2 < 3/100 ∨ (_rgbToHsl r g b).2.2 > 97/100 := by
      rcases h with h | h
      · left; linarith
      · right; linarith
    by_cases ha : a = 0
    · simp [recolorData, ha]
    · simp [recolorData, ha, hguard]
  · intro ha hl
    simp only [recolorData, if_neg ha]
    rw [if_neg (by rw [hl]; norm_num)]
  · have h1 : _rgbToHsl 128 127 127 = (0, 1/255, 1/2) := by
      norm_num [_rgbToHsl, max_def, min_def]
    have h2 : _hslToRgb 180 (1/255) (1/2) = (127, 128, 128) := by
      norm_num [_hslToRgb, hue2rgb, jsRound, Int.floor_eq_iff]
    refine ⟨by rw [h1], by rw [h1], by norm_num, ?_⟩
    norm_num [recolorData, h1, h2, clamp8]
    omega

/-- Witness for the amended C4: the skip branch at (0,0,5,255) — lightness
1/102 ≤ 0.01 — and the processed branch at (255,0,0,255) — lightness 1/2. -/
theorem claim_C4_amended_witness :
    (((_rgbToHsl 0 0 5).2.2 ≤ 1/100 ∨ 99/100 ≤ (_rgbToHsl 0 0 5).2.2) ∧
      recolorData 37 [0, 0, 5, 255] = [0, 0, 5, 255]) ∧
    ((255 : ℕ) ≠ 0 ∧ (_rgbToHsl 255 0 0).2.2 = 1/2 ∧
      recolorData 37 [255, 0, 0, 255] =
        [clamp8 (_hslToRgb 37 (_rgbToHsl 255 0 0).2.1 (_rgbToHsl 255 0 0).2.2).1,
         clamp8 (_hslToRgb 37 (_rgbToHsl 255 0 0).2.1 (_rgbToHsl 255 0 0).2.2).2.1,
         clamp8 (_hslToRgb 37 (_rgbToHsl 255 0 0).2.1 (_rgbToHsl 255 0 0).2.2).2.2,
         255]) := by
  have hband : (_rgbToHsl 0 0 5).2.2 ≤ 1/100 ∨ 99/100 ≤ (_rgbToHsl 0 0 5).2.2 := by
    left
    norm_num [_rgbToHsl, max_def, min_def]
  have hl : (_rgbToHsl 255 0 0).2.2 = 1/2 := by
    norm_num [_rgbToHsl, max_def, min_def]
  have hcast : ∀ n : ℕ, ((n : ℕ) : ℚ) = (n : ℚ) := fun n => rfl
  refine ⟨⟨hband, ?_⟩, ⟨by norm_num, hl, ?_⟩⟩
  · have h := (claim_C4_amended 37 0 0 5 255).1
    exact_mod_cast h (by exact_mod_cast hband)
  · have h := (claim_C4_amended 37 255 0 0 255).2.1
    exact_mod_cast h (by norm_num) (by exact_mod_cast hl)

/-- C10.  A gray pixel (r = g = b) inside the processed band is never
tinted: `rgbToHsl` reports saturation 0, and the recolor loop reproduces
its bytes exactly, for every target hue. -/
theorem claim_C10_gray (hue : ℚ) (r a : ℕ) (hr : r ≤ 255) (ha : a ≠ 0)
    (hlo : 3/100 ≤ (_rgbToHsl r r r).2.2) (hhi : (_rgbToHsl r r r).2.2 ≤ 97/100) :
    (_rgbToHsl r r r).2.1 = 0 ∧ recolorData hue [r, r, r, a] = [r, r, r, a] := by
  have key : _rgbToHsl (r : ℚ) r r = (0 * 360, 0, ((r : ℚ)/255 + (r : ℚ)/255)/2) := by
    simp [_rgbToHsl, max_self, min_self]
  have hl : (_rgbToHsl (r : ℚ) r r).2.2 = (r : ℚ)/255 := by
    rw [key]
    show ((r : ℚ)/255 + (r : ℚ)/255)/2 = (r : ℚ)/255
    ring
  have hsat : (_rgbToHsl (r : ℚ) r r).2.1 = 0 := by rw [key]
  have hss : _hslToRgb hue 0 ((r : ℚ)/255)
      = (jsRound ((r : ℚ)/255 * 255), jsRound ((r : ℚ)/255 * 255), jsRound ((r : ℚ)/255 * 255)) := by
    simp only [_hslToRgb]
    rw [show (if ((r : ℚ)/255) < 1/2 then ((r : ℚ)/255) * (1 + (0:ℚ))
          else ((r : ℚ)/255) + 0 - ((r : ℚ)/255) * 0) = (r : ℚ)/255 from by split_ifs <;> ring]
    rw [show 2 * ((r : ℚ)/255) - (r : ℚ)/255 = (r : ℚ)/255 from by ring]
    simp only [hue2rgb_const]
  have hjr : jsRound ((r : ℚ)/255 * 255) = (r : ℤ) := by
    rw [show ((r : ℚ)/255 * 255) = (r : ℚ) from by field_simp, jsRound_natCast]
  have hlo' : 3/100 ≤ (r : ℚ)/255 := by rw [← hl]; exact hlo
  have hhi' : (r : ℚ)/255 ≤ 97/100 := by rw [← hl]; exact hhi
  refine ⟨hsat, ?_⟩
  simp only [recolorData, if_neg ha]
  rw [if_neg (by rw [hl]; push_neg; constructor <;> linarith)]
  rw [hsat, hl, hss, hjr]
  simp only [clamp8_coe r hr]

/-- Witness for C10 at the gray pixel (100,100,100,255) and hue 42. -/
theorem claim_C10_gray_witness :
    (100 ≤ 255 ∧ (255 : ℕ) ≠ 0 ∧ 3/100 ≤ (_rgbToHsl 100 100 100).2.2 ∧
      (_rgbToHsl 100 100 100).2.2 ≤ 97/100) ∧
    ((_rgbToHsl 100 100 100).2.1 = 0 ∧
      recolorData 42 [100, 100, 100, 255] = [100, 100, 100, 255]) := by
  have hlo : 3/100 ≤ (_rgbToHsl (100 : ℚ) 100 100).2.2 := by
    norm_num [_rgbToHsl, max_def, min_def]
  have hhi : (_rgbToHsl (100 : ℚ) 100 100).2.2 ≤ 97/100 := by
    norm_num [_rgbToHsl, max_def, min_def]
  refine ⟨⟨by norm_num, by norm_num, by exact_mod_cast hlo, by exact_mod_cast hhi⟩, ?_⟩
  have h := claim_C10_gray 42 100 255 (by norm_num) (by norm_num)
    (by exact_mod_cast hlo) (by exact_mod_cast hhi)
  exact_mod_cast h

/-! ### Small step lemmas about the element-state helpers -/

lemma fillSrc_of_src_ne {el : ElemState} (h : el.src ≠ "") : fillSrc el = el := by
  simp [fillSrc, h]

lemma setCross_src (el : ElemState) : (setCross el).src = el.src := by
  unfold setCross
  split <;> rfl

lemma setCross_datasetSrc (el : ElemState) : (setCross el).datasetSrc = el.datasetSrc := by
  unfold setCross
  split <;> rfl

lemma setCross_originalSrc (el : ElemState) : (setCross el).originalSrc = el.originalSrc := by
  unfold setCross
  split <;> rfl

lemma setCross_filter (el : ElemState) : (setCross el).filter = el.filter := by
  unfold setCross
  split <;> rfl

lemma setCross_crossOrigin_ne (el : ElemState) : (setCross el).crossOrigin ≠ "" := by
  unfold setCross
  split_ifs with h
  · simp
  · exact h

lemma setCross_of_ne {el : ElemState} (h : el.crossOrigin ≠ "") : setCross el = el := by
  simp [setCross, h]

lemma ensure_src (el : ElemState) : (_ensureOriginalSrc el).src = el.src := by
  unfold _ensureOriginalSrc
  split <;> rfl

lemma ensure_datasetSrc (el : ElemState) : (_ensureOriginalSrc el).datasetSrc = el.datasetSrc := by
  unfold _ensureOriginalSrc
  split <;> rfl

lemma ensure_filter (el : ElemState) : (_ensureOriginalSrc el).filter = el.filter := by
  unfold _ensureOriginalSrc
  split <;> rfl

lemma ensure_crossOrigin (el : ElemState) : (_ensureOriginalSrc el).crossOrigin = el.crossOrigin := by
  unfold _ensureOriginalSrc
  split <;> rfl

lemma ensure_of_locked {el : ElemState} {o : String}
    (ho : el.originalSrc = some o) (hne : o ≠ "") : _ensureOriginalSrc el = el := by
  unfold _ensureOriginalSrc
  rw [if_neg (by simp [ho, hne])]

/-- A hue already inside `[0,360)` passes through `_clampHue` unchanged. -/
lemma clampHue_eq_self {q : ℚ} (h0 : 0 ≤ q) (h1 : q < 360) : _clampHue (.finite q) = q := by
  have hq : (0:ℚ) ≤ q / 360 := by positivity
  have hfl : ⌊q / 360⌋ = 0 := by
    rw [Int.floor_eq_zero_iff, Set.mem_Ico]
    exact ⟨hq, by rw [div_lt_one (by norm_num : (0:ℚ) < 360)]; exact h1⟩
  simp only [_clampHue, jsMod, jsTrunc, if_pos hq, hfl]
  norm_num [h0, not_lt.mpr h0]

/-- C5.  `setHue` clamps degrees into `[0,360)` by modulo with
negative-wraparound correction, maps non-finite input to 0, and therefore
`setHue(id, 370)` is the very same state transformer as `setHue(id, 10)`
and `setHue(id, -10)` the same as `setHue(id, 350)` — in particular both
members of each pair form the same cache key. -/
theorem claim_C5_clampHue :
    (∀ (env : Env) (id : String) (st : CWState),
      ColorWheel.setHue env id (.finite 370) st = ColorWheel.setHue env id (.finite 10) st) ∧
    (∀ (env : Env) (id : String) (st : CWState),
      ColorWheel.setHue env id (.finite (-10)) st = ColorWheel.setHue env id (.finite 350) st) ∧
    (∀ q : ℚ, 0 ≤ _clampHue (.finite q) ∧ _clampHue (.finite q) < 360) ∧
    _clampHue .nan = 0 ∧ _clampHue .posInf = 0 ∧ _clampHue .negInf = 0 := by
  have h370 : _clampHue (.finite 370) = 10 := by
    norm_num [_clampHue, jsMod, jsTrunc, Int.floor_eq_iff]
  have h10 : _clampHue (.finite 10) = 10 := clampHue_eq_self (by norm_num) (by norm_num)
  have h350 : _clampHue (.finite 350) = 350 := clampHue_eq_self (by norm_num) (by norm_num)
  have hneg : _clampHue (.finite (-10)) = 350 := by
    have hc : ⌈(-(1/36) : ℚ)⌉ = 0 := by
      rw [Int.ceil_eq_iff]; norm_num
    norm_num [_clampHue, jsMod, jsTrunc, hc]
  refine ⟨?_, ?_, ?_, rfl, rfl, rfl⟩
  · intro env id st
    simp only [ColorWheel.setHue, h370, h10]
  · intro env id st
    simp only [ColorWheel.setHue, hneg, h350]
  · intro q
    simp only [_clampHue, jsMod, jsTrunc]
    by_cases hq : (0:ℚ) ≤ q / 360
    · rw [if_pos hq]
      have h1 : (⌊q / 360⌋ : ℚ) ≤ q / 360 := Int.floor_le _
      have h2 : q / 360 < ⌊q / 360⌋ + 1 := Int.lt_floor_add_one _
      split_ifs with h
      · constructor <;> linarith
      · constructor <;> linarith
    · rw [if_neg hq]
      have h1 : (q / 360 : ℚ) ≤ ⌈q / 360⌉ := Int.le_ceil _
      have h2 : (⌈q / 360⌉ : ℚ) < q / 360 + 1 := Int.ceil_lt_add_one _
      split_ifs with h
      · constructor <;> linarith
      · constructor <;> linarith

/-- Cross-origin taint branch: the cache-miss path whose `drawImage` throws
sets the CSS fallback filter and returns, touching neither cache nor
processing counter. -/
lemma internal_taint (env : Env) (id : String) (hue : HueVal) (st : CWState) (el : ElemState)
    (helem : st.elems id = some el) (hsrc : el.src ≠ "")
    (hload : (env.decode el.src).1 ≠ 0)
    (hmiss : st.cache (id, hue) = none)
    (htaint : env.tainted el.src = true) :
    _setHueInternal env id (some hue) st
      = st.setElem id { _ensureOriginalSrc (setCross el) with filter := fallbackFilterJs hue } := by
  simp only [_setHueInternal, helem, fillSrc_of_src_ne hsrc, setCross_src, ensure_src,
    hsrc, hload, hmiss, htaint]
  simp

/-- Looking up the element just stored by `setElem`. -/
lemma setElem_elems_self (st : CWState) (id : String) (x : ElemState) :
    (st.setElem id x).elems id = some x := by
  simp [CWState.setElem]

/-- C3.  When pixel extraction fails from cross-origin taint, the failure is
absorbed inside the recolor operation (the model is a total function): the
element's filter is set to the `hue-rotate(<hue>deg) saturate(1.1)` fallback,
its source is untouched, no cache entry is written for the `(id, hue)` key,
and the pixel loop never runs. -/
theorem claim_C3_cors (env : Env) (id : String) (hue : ℚ) (st : CWState) (el : ElemState)
    (helem : st.elems id = some el) (hsrc : el.src ≠ "")
    (hload : (env.decode el.src).1 ≠ 0)
    (hmiss : st.cache (id, HueVal.num hue) = none)
    (htaint : env.tainted el.src = true) :
    (_setHueInternal env id (some (HueVal.num hue)) st).cache = st.cache ∧
    (_setHueInternal env id (some (HueVal.num hue)) st).processCount = st.processCount ∧
    ∃ el' : ElemState, (_setHueInternal env id (some (HueVal.num hue)) st).elems id = some el' ∧
      el'.filter = fallbackFilter hue ∧ el'.src = el.src := by
  rw [internal_taint env id (HueVal.num hue) st el helem hsrc hload hmiss htaint]
  refine ⟨rfl, rfl,
    ⟨{ _ensureOriginalSrc (setCross el) with filter := fallbackFilterJs (HueVal.num hue) }, ?_,
      rfl, ?_⟩⟩
  · simp [CWState.setElem]
  · show (_ensureOriginalSrc (setCross el)).src = el.src
    rw [ensure_src, setCross_src]

/-- Witness for C3 against the concrete tainted environment. -/
theorem claim_C3_cors_witness :
    (stPic.elems "img" = some elemPic ∧ elemPic.src ≠ "" ∧
      (envTaintAll.decode elemPic.src).1 ≠ 0 ∧
      stPic.cache ("img", HueVal.num 120) = none ∧
      envTaintAll.tainted elemPic.src = true) ∧
    ((_setHueInternal envTaintAll "img" (some (HueVal.num 120)) stPic).cache = stPic.cache ∧
      (_setHueInternal envTaintAll "img" (some (HueVal.num 120)) stPic).processCount
        = stPic.processCount ∧
      ∃ el' : ElemState,
        (_setHueInternal envTaintAll "img" (some (HueVal.num 120)) stPic).elems "img" = some el' ∧
        el'.filter = fallbackFilter 120 ∧ el'.src = elemPic.src) := by
  refine ⟨⟨rfl, by decide, by decide, rfl, rfl⟩, ?_⟩
  exact claim_C3_cors envTaintAll "img" 120 stPic elemPic rfl (by decide) (by decide) rfl rfl

lemma fillSrc_originalSrc (el : ElemState) : (fillSrc el).originalSrc = el.originalSrc := by
  unfold fillSrc
  split <;> rfl

/-- When an element's `dataset.originalSrc` is unset (or empty) and its
source is non-empty, `_ensureOriginalSrc` records exactly that source. -/
lemma ensure_record_of_src_ne {el : ElemState}
    (hfalsy : el.originalSrc = none ∨ el.originalSrc = some "") (hsrc : el.src ≠ "") :
    (_ensureOriginalSrc el).originalSrc = some el.src := by
  unfold _ensureOriginalSrc
  rw [if_pos hfalsy]
  simp [hsrc]

/-- No operation changes any element other than the one it addresses. -/
lemma internal_elems_other (env : Env) (id' : String) (v : Option HueVal) (st : CWState)
    (id : String) (hid : id ≠ id') :
    (_setHueInternal env id' v st).elems id = st.elems id := by
  unfold _setHueInternal
  cases hel : st.elems id' with
  | none => rfl
  | some el =>
    cases v with
    | none => simp [CWState.setElem, hid]
    | some hue =>
      dsimp only
      split_ifs with h1 h2
      · simp [CWState.setElem, hid]
      · cases hc : st.cache (id', hue) <;> simp [CWState.setElem, hid]
      · cases hc : st.cache (id', hue) <;> simp [CWState.setElem, hid]

/-- Once `dataset.originalSrc` holds a non-empty value, `_setHueInternal`
never changes it (whatever the branch taken). -/
lemma internal_original_locked (env : Env) (id : String) (v : Option HueVal) (st : CWState)
    (el : ElemState) (o : String)
    (helem : st.elems id = some el) (ho : el.originalSrc = some o) (hne : o ≠ "") :
    ∃ el', (_setHueInternal env id v st).elems id = some el' ∧ el'.originalSrc = some o := by
  unfold _setHueInternal
  rw [helem]
  cases v with
  | none =>
    refine ⟨resetElem el, setElem_elems_self st id (resetElem el), ?_⟩
    simp [resetElem, ensure_of_locked ho hne, ho, hne]
  | some hue =>
    dsimp only
    have hso : (setCross (fillSrc el)).originalSrc = some o := by
      rw [setCross_originalSrc, fillSrc_originalSrc]
      exact ho
    have hso' : (_ensureOriginalSrc (setCross (fillSrc el))).originalSrc = some o := by
      rw [ensure_of_locked hso hne]
      exact hso
    split_ifs with h1 h2
    · exact ⟨setCross (fillSrc el), setElem_elems_self st id _, hso⟩
    · cases hc : st.cache (id, hue) with
      | some u =>
        dsimp only
        refine ⟨_, setElem_elems_self st id _, ?_⟩
        exact hso
      | none =>
        dsimp only
        refine ⟨_, setElem_elems_self st id _, ?_⟩
        exact hso'
    · cases hc : st.cache (id, hue) with
      | some u =>
        dsimp only
        refine ⟨_, setElem_elems_self st id _, ?_⟩
        exact hso
      | none =>
        dsimp only
        rw [if_pos rfl]
        exact ⟨_, rfl, hso'⟩

/-- Combination of the two previous lemmas: a recorded non-empty original
survives `_setHueInternal` aimed at any element. -/
lemma internal_original_stable (env : Env) (id' : String) (v : Option HueVal) (st : CWState)
    (id : String) (el : ElemState) (o : String)
    (helem : st.elems id = some el) (ho : el.originalSrc = some o) (hne : o ≠ "") :
    ∃ el', (_setHueInternal env id' v st).elems id = some el' ∧ el'.originalSrc = some o := by
  by_cases hid : id = id'
  · subst hid
    exact internal_original_locked env id v st el o helem ho hne
  · refine ⟨el, ?_, ho⟩
    rw [internal_elems_other env id' v st id hid]
    exact helem

/-- C8.  The remembered original source: once any touch has recorded a
non-empty original for an element, no later facade call — recolor, cache
hit, fallback or reset, on this or any other element — overwrites it; the
first recolor that reaches the cache-miss path on an element with no
recorded original stores the element's then-current source before any
repaint; the first reset touching such an element likewise records the
then-current source (with the `dataset.src` fallback); and reset always
restores the element's source to the remembered original and clears the
filter. -/
theorem claim_C8_original :
    (∀ (env : Env) (id id' : String) (op : Op) (st : CWState) (el : ElemState) (o : String),
      st.elems id = some el → el.originalSrc = some o → o ≠ "" →
      ∃ el', (runOp env id' op st).elems id = some el' ∧ el'.originalSrc = some o) ∧
    (∀ (env : Env) (id : String) (h : HueVal) (st : CWState) (el : ElemState),
      st.elems id = some el →
      (el.originalSrc = none ∨ el.originalSrc = some "") →
      (fillSrc el).src ≠ "" → (env.decode (fillSrc el).src).1 ≠ 0 →
      st.cache (id, h) = none →
      ∃ el', (_setHueInternal env id (some h) st).elems id = some el' ∧
        el'.originalSrc = some (fillSrc el).src) ∧
    (∀ (env : Env) (id : String) (st : CWState) (el : ElemState),
      st.elems id = some el →
      (el.originalSrc = none ∨ el.originalSrc = some "") →
      ∃ el', (ColorWheel.reset env id st).elems id = some el' ∧
        el'.originalSrc = some (if el.src ≠ "" then el.src
          else if el.datasetSrc ≠ "" then el.datasetSrc else "")) ∧
    (∀ (env : Env) (id : String) (st : CWState) (el : ElemState) (o : String),
      st.elems id = some el → el.originalSrc = some o → o ≠ "" →
      ∃ el', (ColorWheel.reset env id st).elems id = some el' ∧
        el'.src = o ∧ el'.filter = "") := by
  refine ⟨?_, ?_, ?_, ?_⟩
  · intro env id id' op st el o helem ho hne
    rcases op with name | d | hx | _
    · simp only [runOp, ColorWheel.set]
      by_cases hn : name = ""
      · rw [if_pos hn]
        exact internal_original_stable env id' none st id el o helem ho hne
      · rw [if_neg hn]
        cases hl : NAMED_HUES.lookup name with
        | none =>
          dsimp only
          by_cases hp : name ∈ objectProto
          · rw [if_pos hp]
            exact internal_original_stable env id' (some (.protoVal name)) st id el o
              helem ho hne
          · rw [if_neg hp]
            exact internal_original_stable env id' none st id el o helem ho hne
        | some v =>
          exact internal_original_stable env id' (v.map HueVal.num) st id el o helem ho hne
    · exact internal_original_stable env id' (some (.num (_clampHue d))) st id el o helem ho hne
    · simp only [runOp, ColorWheel.setHex]
      cases hp : parseHex hx with
      | none => exact internal_original_stable env id' none st id el o helem ho hne
      | some t =>
        obtain ⟨r, g, b⟩ := t
        exact internal_original_stable env id' _ st id el o helem ho hne
    · exact internal_original_stable env id' none st id el o helem ho hne
  · intro env id h st el helem hfalsy hsrc hload hmiss
    have hfalsy2 : (setCross (fillSrc el)).originalSrc = none
        ∨ (setCross (fillSrc el)).originalSrc = some "" := by
      rw [setCross_originalSrc, fillSrc_originalSrc]
      exact hfalsy
    have hsrc2 : (setCross (fillSrc el)).src ≠ "" := by
      rw [setCross_src]
      exact hsrc
    have hrec : (_ensureOriginalSrc (setCross (fillSrc el))).originalSrc
        = some (fillSrc el).src := by
      rw [ensure_record_of_src_ne hfalsy2 hsrc2, setCross_src]
    unfold _setHueInternal
    rw [helem]
    dsimp only
    rw [if_neg (by rw [setCross_src]; push_neg; exact ⟨hsrc, hload⟩), hmiss]
    dsimp only
    split_ifs with ht
    · exact ⟨_, setElem_elems_self st id _, hrec⟩
    · dsimp only
      rw [if_pos rfl]
      exact ⟨_, rfl, hrec⟩
  · intro env id st el helem hfalsy
    simp only [ColorWheel.reset, _setHueInternal, helem]
    refine ⟨resetElem el, setElem_elems_self st id (resetElem el), ?_⟩
    unfold resetElem _ensureOriginalSrc
    rw [if_pos hfalsy]
    dsimp only
    split_ifs <;> rfl
  · intro env id st el o helem ho hne
    simp only [ColorWheel.reset, _setHueInternal, helem]
    refine ⟨resetElem el, setElem_elems_self st id (resetElem el), ?_, ?_⟩
    · simp [resetElem, ensure_of_locked ho hne, ho, hne]
    · simp [resetElem, ensure_of_locked ho hne, ho, hne]

/-- Witness for C8: a later `setHue` call does not overwrite the remembered
original `"orig.png"`; a first recolor on an untouched element records its
then-current source `"pic.png"`; and reset restores a remembered original. -/
theorem claim_C8_original_witness :
    (stRec.elems "img" = some elemRecolored ∧
      elemRecolored.originalSrc = some "orig.png" ∧ ("orig.png" : String) ≠ "") ∧
    (∃ el', (runOp envTrivial "img" (.opSetHue (.finite 33)) stRec).elems "img" = some el' ∧
      el'.originalSrc = some "orig.png") ∧
    ((stPic.elems "img" = some elemPic ∧
        (elemPic.originalSrc = none ∨ elemPic.originalSrc = some "") ∧
        (fillSrc elemPic).src ≠ "" ∧ (envOk.decode (fillSrc elemPic).src).1 ≠ 0 ∧
        stPic.cache ("img", HueVal.num 7) = none) ∧
      ∃ el', (_setHueInternal envOk "img" (some (HueVal.num 7)) stPic).elems "img" = some el' ∧
        el'.originalSrc = some (fillSrc elemPic).src) ∧
    (∃ el', (ColorWheel.reset envTrivial "img" stRec).elems "img" = some el' ∧
      el'.src = "orig.png" ∧ el'.filter = "") := by
  refine ⟨⟨rfl, rfl, by decide⟩, ?_, ⟨⟨rfl, Or.inl rfl, by decide, by decide, rfl⟩, ?_⟩, ?_⟩
  · exact claim_C8_original.1 envTrivial "img" "img" (.opSetHue (.finite 33)) stRec
      elemRecolored "orig.png" rfl rfl (by decide)
  · exact claim_C8_original.2.1 envOk "img" (HueVal.num 7) stPic elemPic rfl (Or.inl rfl)
      (by decide) (by decide) rfl
  · exact claim_C8_original.2.2.2 envTrivial "img" stRec elemRecolored "orig.png"
      rfl rfl (by decide)

/-! ### Reset idempotence -/

lemma setElem_setElem (st : CWState) (id : String) (a b : ElemState) :
    (st.setElem id a).setElem id b = st.setElem id b := by
  unfold CWState.setElem
  congr 1
  funext i
  by_cases h : i = id <;> simp [h]

/-- Applying the reset branch twice to an element equals applying it once. -/
lemma resetElem_idem (el : ElemState) : resetElem (resetElem el) = resetElem el := by
  by_cases hlock : el.originalSrc = none ∨ el.originalSrc = some ""
  · have hens : _ensureOriginalSrc el
        = { el with originalSrc := some (if el.src ≠ "" then el.src
            else if el.datasetSrc ≠ "" then el.datasetSrc else "") } := by
      unfold _ensureOriginalSrc
      rw [if_pos hlock]
    by_cases hs : el.src = ""
    · by_cases hd : el.datasetSrc = ""
      · have hv : (if el.src ≠ "" then el.src
            else if el.datasetSrc ≠ "" then el.datasetSrc else "") = "" := by
          simp [hs, hd]
        have h1 : resetElem el = { el with originalSrc := some "", filter := "" } := by
          unfold resetElem
          rw [hens, hv]
          simp
        rw [h1]
        unfold resetElem _ensureOriginalSrc
        simp [hs, hd]
      · have hv : (if el.src ≠ "" then el.src
            else if el.datasetSrc ≠ "" then el.datasetSrc else "") = el.datasetSrc := by
          simp [hs, hd]
        have h1 : resetElem el
            = { el with originalSrc := some el.datasetSrc, src := el.datasetSrc, filter := "" } := by
          unfold resetElem
          rw [hens, hv]
          simp [hd]
        rw [h1]
        have ho1 : ({ el with originalSrc := some el.datasetSrc, src := el.datasetSrc, filter := "" } : ElemState).originalSrc = some el.datasetSrc := rfl
        unfold resetElem
        rw [ensure_of_locked ho1 hd, ho1]
        simp [hd]
    · have hv : (if el.src ≠ "" then el.src
          else if el.datasetSrc ≠ "" then el.datasetSrc else "") = el.src := by
        simp [hs]
      have h1 : resetElem el
          = { el with originalSrc := some el.src, src := el.src, filter := "" } := by
        unfold resetElem
        rw [hens, hv]
        simp [hs]
      rw [h1]
      have ho1 : ({ el with originalSrc := some el.src, src := el.src, filter := "" } : ElemState).originalSrc = some el.src := rfl
      unfold resetElem
      rw [ensure_of_locked ho1 hs, ho1]
      simp [hs]
  · push_neg at hlock
    obtain ⟨h1, h2⟩ := hlock
    cases ho : el.originalSrc with
    | none => exact absurd ho h1
    | some o =>
      have hne : o ≠ "" := by
        intro h
        exact h2 (by rw [ho, h])
      have hr : resetElem el = { el with src := o, filter := "" } := by
        unfold resetElem
        rw [ensure_of_locked ho hne, ho]
        simp [hne, ho]
      rw [hr]
      have ho1 : ({ el with src := o, filter := "" } : ElemState).originalSrc = some o := ho
      unfold resetElem
      rw [ensure_of_locked ho1 hne, ho1]
      simp [hne, ho]

/-- C9.  `reset` is idempotent: calling it twice leaves the whole state —
in particular the element's displayed source and filter style — exactly as
calling it once. -/
theorem claim_C9_reset_idem (env : Env) (id : String) (st : CWState) :
    ColorWheel.reset env id (ColorWheel.reset env id st) = ColorWheel.reset env id st := by
  simp only [ColorWheel.reset]
  cases hel : st.elems id with
  | none =>
    have h : _setHueInternal env id none st = st := by
      simp [_setHueInternal, hel]
    rw [h, h]
  | some el =>
    have h1 : _setHueInternal env id none st = st.setElem id (resetElem el) := by
      simp [_setHueInternal, hel]
    rw [h1]
    have h2 : _setHueInternal env id none (st.setElem id (resetElem el))
        = (st.setElem id (resetElem el)).setElem id (resetElem (resetElem el)) := by
      simp [_setHueInternal, setElem_elems_self]
    rw [h2, resetElem_idem, setElem_setElem]
